import Mathlib

/-!
Shallow embedding of the ws-rpc message correlation and dispatch protocol
(src/index.ts) and proofs about it.

The embedding models the runtime behaviour of `setupClient`, `setupServer`,
`setupEventHandling`, `createTimeout` and the associated proxies.  Payload
values are abstract (`Option A`, with `none` playing the role of JavaScript
`undefined`); serialization is the identity on already-parsed envelopes,
matching the JSON strategy's lossless round trip.  Event callbacks are
identified by an opaque id (function identity), mirroring the `Set`-based
registries of the source.
-/

namespace WsRpc

/-- ErrorType enum of errors.ts. -/
inductive ErrorType where
  | BuildError
  | Timeout
  | ConnectionNotOpen
  | Response
  | InvalidWebsocket
  | Unknown
deriving DecidableEq, Repr

/-- Wire-level error code: `code?: number | string` on error envelopes. -/
inductive WireCode where
  | num (n : Int)
  | str (s : String)
deriving DecidableEq, Repr

/-- JavaScript truthiness of an optional wire code (0 and the empty string are falsy). -/
def wireCodeTruthy : Option WireCode → Bool
  | none => false
  | some (.num n) => decide (n ≠ 0)
  | some (.str s) => decide (s ≠ "")

/-- RpcError of errors.ts: a message and an ErrorType code. -/
structure RpcError where
  message : String
  code : ErrorType
deriving DecidableEq, Repr

/-- A plain JavaScript error with an optional code, as thrown by handlers and
returned by validation functions (`Error & (code?: number | string)`). -/
structure JsError where
  message : String
  code : Option WireCode := none
deriving DecidableEq, Repr

/-- Set.add on a list of callback ids: append when absent. -/
def setAdd {β : Type} [DecidableEq β] (l : List β) (x : β) : List β :=
  if x ∈ l then l else l ++ [x]

/-- Set.delete / Map.delete: remove the element (filter semantics; JS sets hold
no duplicates, so filtering equals deleting the single occurrence). -/
def setDelete {β : Type} [DecidableEq β] (l : List β) (x : β) : List β :=
  match l with
  | [] => []
  | y :: rest => if y = x then setDelete rest x else y :: setDelete rest x

/-- The per-connection event registry: Map from event name to the Set of
registered callbacks, in insertion order (setupEventHandling's eventHandlers). -/
abbrev EventRegistry := List (String × List Nat)

/-- Map.get: the callback set registered under a name. -/
def regGet (reg : EventRegistry) (name : String) : Option (List Nat) :=
  match reg with
  | [] => none
  | (k, v) :: rest => if k = name then some v else regGet rest name

/-- Map.set: replace the entry for the name, or append a fresh one. -/
def regSet (reg : EventRegistry) (name : String) (v : List Nat) : EventRegistry :=
  match reg with
  | [] => [(name, v)]
  | (k, w) :: rest => if k = name then (k, v) :: rest else (k, w) :: regSet rest name v

/-- The `on` operation of setupEventHandling: ensure the name has a Set, then
add the callback to it. -/
def evOn (reg : EventRegistry) (name : String) (cb : Nat) : EventRegistry :=
  let reg' := if (regGet reg name).isSome then reg else regSet reg name []
  regSet reg' name (setAdd ((regGet reg' name).getD []) cb)

/-- State of the event machinery: the registry plus the set of callbacks whose
function object carries a truthy `once` property (written by `once` via
Object.assign, and — as in the source — never read by `dispatch`). -/
structure EvState where
  reg : EventRegistry := []
  onceFlags : List Nat := []
deriving DecidableEq, Repr

/-- The `once` operation: Object.assign(callback, with once set to true), then
registration through `on`.  Nothing else differs from `on`. -/
def evOnce (s : EvState) (name : String) (cb : Nat) : EvState :=
  { reg := evOn s.reg name cb, onceFlags := setAdd s.onceFlags cb }

/-- The `off` operation: with a callback, delete exactly it; without, clear the
whole Set for the name (the emptied Set stays in the Map). -/
def evOff (reg : EventRegistry) (name : String) (cb : Option Nat) : EventRegistry :=
  match regGet reg name, cb with
  | none, _ => reg
  | some s, some c => regSet reg name (setDelete s c)
  | some _, none => regSet reg name []

/-- The validation and shouldValidate configuration a connection is set up
with (captured by setupClient / setupServer from the builder). -/
structure RpcConfig (α : Type) where
  functionValidation : String → Option (Option α → Option JsError)
  eventValidation : String → Option (Option α → Option JsError)
  shouldValidate : Bool

/-- The function-validation check `shouldValidate && functionValidation[name]`
followed by applying the validator: `some e` when an error is produced. -/
def funcValidationError {α : Type} (cfg : RpcConfig α) (name : String) (data : Option α) :
    Option JsError :=
  match (if cfg.shouldValidate then cfg.functionValidation name else none) with
  | some validate => validate data
  | none => none

/-- The event-validation check, same shape as funcValidationError. -/
def eventValidationError {α : Type} (cfg : RpcConfig α) (name : String) (data : Option α) :
    Option JsError :=
  match (if cfg.shouldValidate then cfg.eventValidation name else none) with
  | some validate => validate data
  | none => none

/-- The `dispatch` operation of setupEventHandling on an inbound event
envelope.  It reads the handler Set, runs validation (throwing the validation
error when one is produced — the `.error` case), and otherwise invokes every
registered handler once, in order, returning their ids.  It never modifies the
registry and never consults a callback's `once` flag, exactly as the source
loop does. -/
def dispatch {α : Type} (cfg : RpcConfig α) (reg : EventRegistry) (ev : String)
    (data : Option α) : Except JsError (List Nat) :=
  let handlers := (regGet reg ev).getD []
  match eventValidationError cfg ev data with
  | some e => .error e
  | none => .ok handlers

/-- Successive dispatches of inbound events against a registry.  `dispatch`
mutates nothing (the source loop only calls the handlers), so every dispatch
sees the same registry; the result is the concatenation of the invoked
callback ids, dropped events contributing nothing. -/
def dispatchAll {α : Type} (cfg : RpcConfig α) (reg : EventRegistry)
    (events : List (String × Option α)) : List Nat :=
  events.foldl
    (fun acc e =>
      acc ++ (match dispatch cfg reg e.1 e.2 with
        | .ok l => l
        | .error _ => []))
    []

/-- A decoded wire envelope, classified as the message handlers do by field
presence in priority order: the error marker first, then the function-name
marker, then the event marker; deserialization producing a non-object is the
last case.  Payload fields are `Option` values, `none` standing for an absent
field / JavaScript undefined. -/
inductive Parsed (α : Type) where
  | errMsg (mid : String) (message : String) (code : Option WireCode) (data : Option α)
  | mtMsg (mt : String) (mid : String) (data : Option α)
  | evMsg (ev : String) (data : Option α)
  | nonObject
deriving DecidableEq, Repr

/-- Constructor argument of an RpcError reconstructed by the client's err
branch: either a truthy wire code cast to ErrorType, or ErrorType.Response. -/
inductive ErrCode where
  | typ (t : ErrorType)
  | wire (w : WireCode)
deriving DecidableEq, Repr

/-- The error object a client call rejects with on an inbound error envelope:
`Object.assign(new RpcError(message, code ? code : ErrorType.Response),
(code, data))`.  The assign overwrites the constructor's code property with
the raw (possibly absent) wire code; `ctorCode` keeps the constructor
argument, `code` the property after the assign. -/
structure ClientRejectError (α : Type) where
  message : String
  ctorCode : ErrCode
  code : Option WireCode
  data : Option α
deriving DecidableEq, Repr

/-- Build the reconstructed error of the client's err branch. -/
def mkClientError {α : Type} (message : String) (code : Option WireCode) (data : Option α) :
    ClientRejectError α :=
  { message := message
    ctorCode := match code with
      | some w => if wireCodeTruthy (some w) then .wire w else .typ .Response
      | none => .typ .Response
    code := code
    data := data }

/-- How a pending call's respond callback settles the call's promise. -/
inductive Settlement (α : Type) where
  | resolve (data : Option α)
  | rejectError (e : ClientRejectError α)
  | rejectValidatorFn (mt : String)
deriving DecidableEq, Repr

/-- Everything the client messageHandler does on one inbound message: the
pending-call table afterwards (the mids with live respond entries), the
settlement performed (if a respond callback was invoked), whether the literal
pong was sent, whether an unanticipated message was logged, which event
callbacks were invoked, and an exception escaping the handler. -/
structure ClientOut (α : Type) where
  pending : List String
  settled : Option (String × Settlement α) := none
  sentPong : Bool := false
  warned : Bool := false
  invoked : List Nat := []
  thrown : Option JsError := none
deriving DecidableEq, Repr

/-- An inbound message on the client side: the literal text ping, or a
deserialized envelope. -/
inductive ClientInMsg (α : Type) where
  | pingText
  | parsed (p : Parsed α)
deriving DecidableEq, Repr

/-- The client-side messageHandler of setupClient. -/
def clientMessageHandler {α : Type} [DecidableEq α] (cfg : RpcConfig α) (creg : EventRegistry)
    (pending : List String) (m : ClientInMsg α) : ClientOut α :=
  match m with
  | .pingText => { pending := pending, sentPong := true }
  | .parsed .nonObject => { pending := pending, warned := true }
  | .parsed (.errMsg mid message code data) =>
    let error := mkClientError message code data
    let respond := mid ∈ pending
    let pending' := setDelete pending mid
    if respond then { pending := pending', settled := some (mid, .rejectError error) }
    else { pending := pending', warned := true }
  | .parsed (.mtMsg mt mid data) =>
    let respond := mid ∈ pending
    let pending' := setDelete pending mid
    if cfg.shouldValidate ∧ (cfg.functionValidation mt).isSome ∧ respond then
      -- the source reads `const error = functionValidation[mt]` without applying
      -- it: the validator function itself, truthy whenever registered, becomes
      -- the rejection reason
      { pending := pending', settled := some (mid, .rejectValidatorFn mt) }
    else if respond then { pending := pending', settled := some (mid, .resolve data) }
    else { pending := pending', warned := true }
  | .parsed (.evMsg ev data) =>
    match dispatch cfg creg ev data with
    | .ok invoked => { pending := pending, invoked := invoked }
    | .error e => { pending := pending, thrown := some e }

/-- The connection readyState values 0..3 (CONNECTING, OPEN, CLOSING, CLOSED). -/
inductive ReadyState where
  | connecting
  | opened
  | closing
  | closed
deriving DecidableEq, Repr

/-- assertConnectionOpen of setupClient: `none` when the operation may
proceed, otherwise the RpcError it throws. -/
def assertConnectionOpen : ReadyState → Option RpcError
  | .opened => none
  | .connecting =>
    some { message := "WebSocket connection is CONNECTING, cannot perform operation"
           code := .ConnectionNotOpen }
  | .closing =>
    some { message := "WebSocket connection is CLOSING, cannot perform operation"
           code := .ConnectionNotOpen }
  | .closed =>
    some { message := "WebSocket connection is CLOSED, cannot perform operation"
           code := .ConnectionNotOpen }

/-- Outcome of the client proxy's sendEvent. -/
inductive SendEventResult (α : Type) where
  | notOpen (e : RpcError)
  | validationError (e : JsError)
  | sent (ev : String) (data : Option α)
deriving DecidableEq, Repr

/-- The client proxy's sendEvent: assert the connection open, run event
validation (throwing its error), then send the event envelope. -/
def clientSendEvent {α : Type} (cfg : RpcConfig α) (state : ReadyState) (name : String)
    (data : Option α) : SendEventResult α :=
  match assertConnectionOpen state with
  | some e => .notOpen e
  | none =>
    match eventValidationError cfg name data with
    | some e => .validationError e
    | none => .sent name data

/-- Outcome of the server proxy's sendEvent (no open assertion; the event is
broadcast to the live connection set, failed sends skipped). -/
inductive ServerSendEventResult (α : Type) where
  | validationError (e : JsError)
  | sentTo (clients : List Nat) (ev : String) (data : Option α)
deriving DecidableEq, Repr

/-- The server proxy's sendEvent. -/
def serverSendEvent {α : Type} (cfg : RpcConfig α) (active : List Nat) (name : String)
    (data : Option α) : ServerSendEventResult α :=
  match eventValidationError cfg name data with
  | some e => .validationError e
  | none => .sentTo active name data

/-- A function-request envelope as built by the client's call path:
`(mt := prop, data, mid := nanoid())`. -/
structure MtMsg (α : Type) where
  mt : String
  mid : String
  data : Option α
deriving DecidableEq, Repr

/-- Outcome of the synchronous part of a client call, up to and including the
send: the thrown ConnectionNotOpen error, the thrown validation error, or the
sent request together with the pending table extended by its mid. -/
inductive CallStart (α : Type) where
  | notOpen (e : RpcError)
  | validationError (e : JsError)
  | sent (msg : MtMsg α) (pending : List String)
deriving DecidableEq, Repr

/-- The client proxy's default branch (a remote function call) up to the send:
assert the connection open, build the request envelope, special-case ping
(which reassigns the local data to undefined after the envelope was built),
run function validation on the possibly reassigned data, record the respond
entry under the fresh mid and send. -/
def clientCallStart {α : Type} (cfg : RpcConfig α) (state : ReadyState) (pending : List String)
    (f : String) (data : Option α) (mid : String) : CallStart α :=
  match assertConnectionOpen state with
  | some e => .notOpen e
  | none =>
    let message : MtMsg α := { mt := f, mid := mid, data := data }
    let data' := if f = "ping" then none else data
    match funcValidationError cfg f data' with
    | some e => .validationError e
    | none => .sent message (pending ++ [mid])

/-- A registered server-side function handler: resolves with a response value
or rejects with an error. -/
abbrev Handler (α : Type) := Option α → Except JsError (Option α)

/-- Everything the server messageHandler does on one inbound message from a
client: envelopes sent back on that connection, event callbacks invoked, an
exception escaping the handler, the pong-listener notification, and logging
of an unexpected err envelope. -/
structure ServerOut (α : Type) where
  sends : List (Parsed α) := []
  invoked : List Nat := []
  thrown : Option JsError := none
  pongNotified : Bool := false
  warned : Bool := false
deriving DecidableEq, Repr

/-- An inbound message on the server side: the literal text pong, or a
deserialized envelope. -/
inductive ServerInMsg (α : Type) where
  | pongText
  | parsed (p : Parsed α)
deriving DecidableEq, Repr

/-- The error message of the dedicated no-handler error envelope. -/
def noHandlerMessage (mt : String) : String :=
  "Server had no registered handler for function '" ++ mt ++ "'"

/-- The server-side messageHandler of setupServer, for one client connection. -/
def serverHandleMessage {α : Type} [DecidableEq α] (cfg : RpcConfig α)
    (handlers : String → Option (Handler α)) (sreg : EventRegistry) (m : ServerInMsg α) :
    ServerOut α :=
  match m with
  | .pongText => { pongNotified := true }
  | .parsed .nonObject => {}
  | .parsed (.errMsg _ _ _ _) => { warned := true }
  | .parsed (.evMsg ev data) =>
    match dispatch cfg sreg ev data with
    | .ok invoked => { invoked := invoked }
    | .error e => { thrown := some e }
  | .parsed (.mtMsg mt mid data) =>
    if mt = "ping" then
      -- the reserved liveness function is answered immediately with
      -- (mt, mid) and no data field, before any handler lookup
      { sends := [.mtMsg mt mid none] }
    else
      match handlers mt with
      | none => { sends := [.errMsg mid (noHandlerMessage mt) none none] }
      | some h =>
        match funcValidationError cfg mt data with
        | some e => { sends := [.errMsg mid e.message e.code none] }
        | none =>
          match h data with
          | .ok v => { sends := [.mtMsg mt mid v] }
          | .error e => { sends := [.errMsg mid e.message e.code none] }

/-- Outcome of invoking the async function returned by the server proxy's
default branch (a self-call). -/
inductive SelfCallOutcome (α : Type) where
  | validationError (e : JsError)
  | typeErrorUndefined
  | resolved (v : Option α)
  | rejected (e : JsError)
deriving DecidableEq, Repr

/-- The property names the server proxy handles before its default branch. -/
def builtinServerProps : List String :=
  ["on", "once", "one", "off", "onError", "onClose", "sendEvent", "ping",
   "isClosed", "close", "then"]

/-- The server proxy's default branch: `handlers[prop]` is looked up, then the
returned async function runs function validation (throwing its error) and
applies the looked-up handler — applying undefined, a TypeError, when no
handler is registered under the name. -/
def serverSelfCall {α : Type} (cfg : RpcConfig α) (handlers : String → Option (Handler α))
    (name : String) (data : Option α) : SelfCallOutcome α :=
  match funcValidationError cfg name data with
  | some e => .validationError e
  | none =>
    match handlers name with
    | none => .typeErrorUndefined
    | some h =>
      match h data with
      | .ok v => .resolved v
      | .error e => .rejected e

/-- A settled promise's outcome. -/
inductive POutcome (α : Type) where
  | fulfilled (v : α)
  | rejected (e : RpcError)
deriving DecidableEq, Repr

/-- The promise built by createTimeout, in the scenario where the timer fires
(clearTimeout was not called in time): its only settlement is rejection with
the given error. -/
def createTimeoutOutcome (e : RpcError) : POutcome Unit := .rejected e

/-- p.then(onFulfilled) where onFulfilled performs a state update: the update
runs only when p fulfills; a rejected p passes its rejection through with the
state untouched. -/
def promiseThenEffect {σ : Type} (p : POutcome Unit) (onFulfilled : σ → σ) (s : σ) :
    σ × POutcome Unit :=
  match p with
  | .fulfilled v => (onFulfilled s, .fulfilled v)
  | .rejected e => (s, .rejected e)

/-- The Timeout error a client call's timer rejects with. -/
def timeoutError (f : String) (ms : Nat) : RpcError :=
  { message := "Call to '" ++ f ++ "' failed because it timed out in " ++ toString ms ++ "ms"
    code := .Timeout }

/-- State of a call whose timeout elapsed before any response: the pending
table afterwards and the settled outcome of the race. -/
structure TimedOutCall where
  pending : List String
  outcome : POutcome Unit
deriving DecidableEq, Repr

/-- A client call whose timeout of timeoutMS elapses with no matching message:
the race `Promise.race([response, timeout.then(delete the mid)])` settles with
the timeout arm.  The delete callback is attached as the then-onFulfilled of
the timeout promise, which only ever rejects. -/
def callTimedOut (pending : List String) (f : String) (timeoutMS : Nat) (mid : String) :
    TimedOutCall :=
  let armed := promiseThenEffect (createTimeoutOutcome (timeoutError f timeoutMS))
      (fun p => setDelete p mid) pending
  { pending := armed.1, outcome := armed.2 }

/-- A full round trip of one client call answered promptly by the server: the
client call start, the server handling the request, and the client handling
the single reply while the pending entry is still live. -/
inductive RoundTrip (α : Type) where
  | startNotOpen (e : RpcError)
  | startValidationError (e : JsError)
  | noSingleReply (out : ServerOut α)
  | reply (settled : Option (String × Settlement α))
deriving DecidableEq, Repr

/-- Compose the call path: client call start on an open connection with an
empty pending table, server messageHandler on the request envelope, client
messageHandler on the reply. -/
def roundTrip {α : Type} [DecidableEq α] (ccfg scfg : RpcConfig α)
    (handlers : String → Option (Handler α)) (sreg creg : EventRegistry)
    (f : String) (data : Option α) (mid : String) : RoundTrip α :=
  match clientCallStart ccfg .opened [] f data mid with
  | .notOpen e => .startNotOpen e
  | .validationError e => .startValidationError e
  | .sent msg pending =>
    let out := serverHandleMessage scfg handlers sreg (.parsed (.mtMsg msg.mt msg.mid msg.data))
    match out.sends with
    | [p] => .reply (clientMessageHandler ccfg creg pending (.parsed p)).settled
    | _ => .noSingleReply out

/-- State of one server-side ping probe: the snapshot wait Set taken from
activeConnections at call time, the live connection Set, and whether the
wait-for-pongs promise has resolved. -/
structure PingState where
  waitingFor : List Nat
  active : List Nat
  resolved : Bool
deriving DecidableEq, Repr

/-- Start of the server proxy's ping: snapshot the active connections into the
wait Set (the literal text ping is sent to each member). -/
def pingStart (active : List Nat) : PingState :=
  { waitingFor := active, active := active, resolved := false }

/-- Events observable by a ping probe while it waits. -/
inductive PingEvent where
  | pong (c : Nat)
  | disconnect (c : Nat)
deriving DecidableEq, Repr

/-- One step of the probe.  A pong notifies listenForPongs, which deletes the
answering client from the wait Set and resolves when the Set empties (after
resolution the listener has been removed, so the state is final).  A close
event deletes the client from activeConnections only — nothing touches the
wait Set. -/
def pingStep (s : PingState) (e : PingEvent) : PingState :=
  match e with
  | .disconnect c => { s with active := setDelete s.active c }
  | .pong c =>
    if s.resolved then s
    else
      let wf := setDelete s.waitingFor c
      { s with waitingFor := wf, resolved := wf.isEmpty }

/-- Run a probe over a sequence of events. -/
def pingRun (s : PingState) (events : List PingEvent) : PingState :=
  events.foldl pingStep s

/-- A connection configuration with no validators and validation disabled. -/
def cfgPlain : RpcConfig Nat :=
  { functionValidation := fun _ => none
    eventValidation := fun _ => none
    shouldValidate := false }

/-- Validation enabled, with a function validator for test that accepts every
payload (returns false). -/
def cfgValPassTest : RpcConfig Nat :=
  { functionValidation := fun n => if n = "test" then some (fun _ => none) else none
    eventValidation := fun _ => none
    shouldValidate := true }

/-- A handler map registering test, returning 5. -/
def handlersTest : String → Option (Handler Nat) :=
  fun n => if n = "test" then some (fun _ => .ok (some 5)) else none

/-- An empty handler map. -/
def handlersNone : String → Option (Handler Nat) := fun _ => none

/-- Validation enabled, with a function validator for f and an event validator
for e, each rejecting every payload. -/
def cfgBothValFail : RpcConfig Nat :=
  { functionValidation := fun n => if n = "f" then some (fun _ => some { message := "nope" }) else none
    eventValidation := fun n => if n = "e" then some (fun _ => some { message := "bad" }) else none
    shouldValidate := true }

/- Helper lemmas about the Map and Set embeddings. -/

theorem regGet_regSet_self (reg : EventRegistry) (name : String) (v : List Nat) :
    regGet (regSet reg name v) name = some v := by
  induction reg with
  | nil => simp [regSet, regGet]
  | cons kv rest ih =>
    by_cases h : kv.1 = name
    · simp [regSet, regGet, h]
    · simp [regSet, regGet, h, ih]

theorem regSet_regGet_self (reg : EventRegistry) (name : String) (v : List Nat)
    (h : regGet reg name = some v) : regSet reg name v = reg := by
  induction reg with
  | nil => simp [regGet] at h
  | cons kv rest ih =>
    obtain ⟨k, w⟩ := kv
    by_cases hk : k = name
    · subst hk
      simp [regGet] at h
      simp [regSet, h]
    · simp [regGet, hk] at h
      simp [regSet, hk, ih h]

theorem mem_setAdd_self {β : Type} [DecidableEq β] (l : List β) (x : β) : x ∈ setAdd l x := by
  by_cases h : x ∈ l
  · simp [setAdd, h]
  · simp [setAdd, h]

theorem setAdd_of_mem {β : Type} [DecidableEq β] {l : List β} {x : β} (h : x ∈ l) :
    setAdd l x = l := by
  simp [setAdd, h]

theorem count_setAdd_self {β : Type} [DecidableEq β] {l : List β} {x : β} (h : x ∉ l) :
    (setAdd l x).count x = 1 := by
  have hc : l.count x = 0 := List.count_eq_zero.mpr h
  simp [setAdd, h, List.count_append, hc]

theorem regGet_evOn_self (reg : EventRegistry) (name : String) (cb : Nat) :
    regGet (evOn reg name cb) name = some (setAdd ((regGet reg name).getD []) cb) := by
  unfold evOn
  cases h : regGet reg name with
  | some v => simp [h, regGet_regSet_self]
  | none => simp [h, regGet_regSet_self]

theorem evOn_of_mem (R : EventRegistry) (name : String) (cb : Nat) (S : List Nat)
    (hget : regGet R name = some S) (hmem : cb ∈ S) : evOn R name cb = R := by
  unfold evOn
  simp only [hget, Option.isSome_some, if_true, Option.getD_some]
  rw [setAdd_of_mem hmem]
  exact regSet_regGet_self _ _ _ hget

theorem evOn_idem (reg : EventRegistry) (name : String) (cb : Nat) :
    evOn (evOn reg name cb) name cb = evOn reg name cb :=
  evOn_of_mem _ _ _ _ (regGet_evOn_self reg name cb) (mem_setAdd_self _ _)

theorem setDelete_eq_filter {β : Type} [DecidableEq β] (l : List β) (x : β) :
    setDelete l x = l.filter (fun y => decide (y ≠ x)) := by
  induction l with
  | nil => rfl
  | cons y rest ih =>
    by_cases h : y = x
    · simp [setDelete, h, ih]
    · simp [setDelete, h, ih]

theorem mem_setDelete {β : Type} [DecidableEq β] {l : List β} {x a : β} :
    a ∈ setDelete l x ↔ a ∈ l ∧ a ≠ x := by
  rw [setDelete_eq_filter]
  simp [List.mem_filter]

/- Helper lemmas about the ping probe. -/

theorem pingRun_resolved_of_resolved (events : List PingEvent) :
    ∀ s : PingState, s.resolved = true → (pingRun s events).resolved = true := by
  induction events with
  | nil => intro s h; exact h
  | cons e rest ih =>
    intro s h
    have hstep : (pingStep s e).resolved = true := by
      cases e with
      | disconnect c => simpa [pingStep] using h
      | pong c => simp [pingStep, h]
    exact ih _ hstep

theorem pingRun_stuck (events : List PingEvent) :
    ∀ (s : PingState) (c : Nat), c ∈ s.waitingFor → s.resolved = false →
      PingEvent.pong c ∉ events →
      c ∈ (pingRun s events).waitingFor ∧ (pingRun s events).resolved = false := by
  induction events with
  | nil => intro s c hc hr _; exact ⟨hc, hr⟩
  | cons e rest ih =>
    intro s c hc hr hne
    have hhead : e ≠ PingEvent.pong c := by
      intro h; subst h; exact hne (List.mem_cons_self _ _)
    have htail : PingEvent.pong c ∉ rest := fun h => hne (List.mem_cons_of_mem _ h)
    have hrun : pingRun s (e :: rest) = pingRun (pingStep s e) rest := rfl
    cases e with
    | disconnect c' =>
      rw [hrun]
      exact ih { s with active := setDelete s.active c' } c hc hr htail
    | pong c' =>
      have hcc : c ≠ c' := by intro h; exact hhead (by rw [h])
      have hmem : c ∈ setDelete s.waitingFor c' := mem_setDelete.mpr ⟨hc, hcc⟩
      have hne' : (setDelete s.waitingFor c').isEmpty = false := by
        cases hd : setDelete s.waitingFor c' with
        | nil => rw [hd] at hmem; simp at hmem
        | cons a b => simp [hd]
      have hstep : pingStep s (.pong c') =
          { s with waitingFor := setDelete s.waitingFor c',
                   resolved := (setDelete s.waitingFor c').isEmpty } := by
        simp [pingStep, hr]
      rw [hrun, hstep]
      exact ih _ c hmem hne' htail

theorem pingRun_resolves (events : List PingEvent) :
    ∀ s : PingState, s.resolved = false → s.waitingFor ≠ [] →
      (∀ c ∈ s.waitingFor, PingEvent.pong c ∈ events) →
      (pingRun s events).resolved = true := by
  induction events with
  | nil =>
    intro s _ hw hall
    rcases List.exists_mem_of_ne_nil _ hw with ⟨c, hc⟩
    exact absurd (hall c hc) (List.not_mem_nil _)
  | cons e rest ih =>
    intro s hr hw hall
    have hrun : pingRun s (e :: rest) = pingRun (pingStep s e) rest := rfl
    cases e with
    | disconnect c' =>
      have hall' : ∀ c ∈ s.waitingFor, PingEvent.pong c ∈ rest := by
        intro c hc
        rcases List.mem_cons.mp (hall c hc) with h | h
        · cases h
        · exact h
      rw [hrun]
      exact ih { s with active := setDelete s.active c' } hr hw hall'
    | pong c' =>
      have hstep : pingStep s (.pong c') =
          { s with waitingFor := setDelete s.waitingFor c',
                   resolved := (setDelete s.waitingFor c').isEmpty } := by
        simp [pingStep, hr]
      rw [hrun, hstep]
      by_cases hempty : (setDelete s.waitingFor c').isEmpty = true
      · exact pingRun_resolved_of_resolved rest _ (by simp [hempty])
      · have hempty' : (setDelete s.waitingFor c').isEmpty = false :=
          Bool.eq_false_iff.mpr hempty
        have hne : setDelete s.waitingFor c' ≠ [] := by
          intro h; rw [h] at hempty; simp at hempty
        refine ih _ (by simp [hempty']) hne ?_
        intro c hc
        rcases mem_setDelete.mp hc with ⟨hcs, hcc⟩
        rcases List.mem_cons.mp (hall c hcs) with h | h
        · exact absurd (by injection h) hcc
        · exact h

/-- Claim C1: the claim states that a call whose response arrives resolves with
exactly the handler's value for every connection configuration, including when
a validator is registered for the function and validation is enabled.  The
code violates it in exactly that configuration: the client's response branch
reads the registered validator without applying it, and the always-truthy
function object becomes a rejection reason — the call rejects with the
validator function instead of resolving with the handler's value (here 5,
under a validator that accepts every payload).  With validation disabled the
same round trip resolves correctly, isolating the slip. -/
theorem roundtrip_validator_registered_rejects :
    roundTrip cfgValPassTest cfgValPassTest handlersTest [] [] "test" (some 1) "m1"
      = .reply (some ("m1", .rejectValidatorFn "test"))
    ∧ roundTrip cfgPlain cfgPlain handlersTest [] [] "test" (some 1) "m1"
      = .reply (some ("m1", .resolve (some 5))) := by
  exact ⟨rfl, rfl⟩

/-- Claim C2: the claim states a callback registered via once fires at most
once, with the subscription removed before its side effects run.  In the code
the once flag written by Object.assign is never read: dispatch never removes
the subscription, so two inbound dispatches of the event invoke the callback
twice, and the subscription (and the flag) are still in place afterwards. -/
theorem once_handler_fires_every_dispatch :
    (dispatchAll cfgPlain (evOnce {} "test" 1).reg [("test", none), ("test", none)]).count 1 = 2
    ∧ regGet (evOnce {} "test" 1).reg "test" = some [1]
    ∧ (evOnce {} "test" 1).onceFlags = [1] := by decide

/-- Claim C3: the claim states that on timeout the pending entry is deleted,
the promise rejects with a Timeout error naming the function and the bound,
and late arrivals are dropped.  The rejection is as claimed, but the delete
callback is attached as the then-onFulfilled of the timeout promise, which
only ever rejects: the entry survives in the pending table, and a late
response for that mid still finds the entry and invokes its respond callback
(settling the inner promise) instead of being dropped as unanticipated. -/
theorem timeout_pending_entry_survives :
    (callTimedOut ["m1"] "test" 10 "m1").pending = ["m1"]
    ∧ (callTimedOut ["m1"] "test" 10 "m1").outcome = .rejected (timeoutError "test" 10)
    ∧ (timeoutError "test" 10).code = .Timeout
    ∧ (timeoutError "test" 10).message = "Call to 'test' failed because it timed out in 10ms"
    ∧ (clientMessageHandler cfgPlain [] (callTimedOut ["m1"] "test" 10 "m1").pending
        (.parsed (.mtMsg "test" "m1" (some 7)))).settled = some ("m1", .resolve (some 7))
    ∧ (clientMessageHandler cfgPlain [] (callTimedOut ["m1"] "test" 10 "m1").pending
        (.parsed (.mtMsg "test" "m1" (some 7)))).warned = false := by decide

/-- Claim C4 counterexample: the claim quantifies over every function name
without a registered handler, but for the reserved name ping the server
answers with a response envelope (no data field) before the handler lookup,
and the caller's promise resolves instead of rejecting with a no-handler
error. -/
theorem ping_no_handler_resolves :
    handlersNone "ping" = none
    ∧ serverHandleMessage cfgPlain handlersNone [] (.parsed (.mtMsg "ping" "m1" none))
      = { sends := [.mtMsg "ping" "m1" none] }
    ∧ roundTrip cfgPlain cfgPlain handlersNone [] [] "ping" none "m1"
      = .reply (some ("m1", .resolve none)) := by
  exact ⟨rfl, by decide, by decide⟩

/-- Claim C4 (amended): for every call to a non-reserved function name (any
name other than the built-in ping) that the receiving server has no handler
for, the server sends back upon receipt exactly one error envelope whose
message names the function, and the caller — whose pending entry is still
live — rejects with an error carrying that message, constructed with
ErrorType.Response, not with a Timeout error. -/
theorem no_handler_call_rejects {α : Type} [DecidableEq α] (ccfg scfg : RpcConfig α)
    (handlers : String → Option (Handler α)) (sreg creg : EventRegistry)
    (f : String) (d : Option α) (mid : String)
    (hping : f ≠ "ping") (hnone : handlers f = none)
    (hval : funcValidationError ccfg f d = none) :
    serverHandleMessage scfg handlers sreg (.parsed (.mtMsg f mid d))
      = { sends := [.errMsg mid (noHandlerMessage f) none none] }
    ∧ roundTrip ccfg scfg handlers sreg creg f d mid
      = .reply (some (mid, .rejectError (mkClientError (noHandlerMessage f) none none)))
    ∧ (mkClientError (noHandlerMessage f) none (none : Option α)).ctorCode = .typ .Response
    ∧ noHandlerMessage f = "Server had no registered handler for function '" ++ f ++ "'" := by
  have hserver : serverHandleMessage scfg handlers sreg
      (.parsed (.mtMsg f mid d)) = { sends := [.errMsg mid (noHandlerMessage f) none none] } := by
    simp [serverHandleMessage, hping, hnone]
  refine ⟨hserver, ?_, rfl, rfl⟩
  have hdata : (if f = "ping" then (none : Option α) else d) = d := if_neg hping
  simp [roundTrip, clientCallStart, assertConnectionOpen, hdata, hval, hserver,
    clientMessageHandler, setDelete]

/-- Claim C4 witness: instantiation at a concrete unregistered name. -/
theorem no_handler_call_rejects_witness :
    roundTrip cfgPlain cfgPlain handlersNone [] [] "someFn" (some 2) "m1"
      = .reply (some ("m1", .rejectError (mkClientError (noHandlerMessage "someFn") none none))) :=
  (no_handler_call_rejects cfgPlain cfgPlain handlersNone [] [] "someFn" (some 2) "m1"
    (by decide) rfl rfl).2.1

/-- Claim C5 counterexample: the claim states a peer that disconnects
mid-probe is excluded from the wait set so its missing pong does not prevent
settlement before the timeout.  In the code the close handler deletes the
peer from activeConnections only; the probe's snapshot wait Set is untouched,
so after the only peer disconnects it is still waited for and the probe is
unresolved (it can then only settle by the timeout rejection). -/
theorem ping_disconnect_stays_in_wait_set :
    (pingRun (pingStart [0]) [.disconnect 0]).waitingFor = [0]
    ∧ (pingRun (pingStart [0]) [.disconnect 0]).resolved = false
    ∧ (pingRun (pingStart [0]) [.disconnect 0]).active = [] := by decide

/-- Claim C5 (amended): the server ping probe sends the reserved control
message to every peer in the snapshot of connections taken at the moment of
the call, and resolves when a pong empties its wait set: once every peer of a
nonempty snapshot has answered pong the probe is resolved, and a probe whose
wait set is already empty resolves at the next pong from any peer (every
inbound pong notifies every in-flight listener).  A peer that disconnects
mid-probe remains in the wait set — only activeConnections is updated — so a
snapshot peer that never pongs keeps the probe unresolved and it settles only
by the timeout rejection. -/
theorem ping_wait_set_semantics (snapshot : List Nat) (events : List PingEvent) :
    (snapshot ≠ [] → (∀ c ∈ snapshot, PingEvent.pong c ∈ events) →
      (pingRun (pingStart snapshot) events).resolved = true)
    ∧ (∀ c ∈ snapshot, PingEvent.pong c ∉ events →
        c ∈ (pingRun (pingStart snapshot) events).waitingFor
        ∧ (pingRun (pingStart snapshot) events).resolved = false)
    ∧ (∀ c : Nat, (pingRun (pingStart []) (PingEvent.pong c :: events)).resolved = true) := by
  refine ⟨?_, ?_, ?_⟩
  · intro hne hall
    exact pingRun_resolves events (pingStart snapshot) rfl hne hall
  · intro c hc hnp
    exact pingRun_stuck events (pingStart snapshot) c hc rfl hnp
  · intro c
    have hstep : pingStep (pingStart []) (.pong c)
        = { waitingFor := [], active := [], resolved := true } := by
      simp [pingStart, pingStep, setDelete]
    have hrun : pingRun (pingStart []) (PingEvent.pong c :: events)
        = pingRun (pingStep (pingStart []) (.pong c)) events := rfl
    rw [hrun, hstep]
    exact pingRun_resolved_of_resolved events _ rfl

/-- Claim C5 witness: two peers that both pong resolve the probe; a peer that
only disconnects is still waited for; an empty-snapshot probe resolves at a
stray pong. -/
theorem ping_wait_set_witness :
    (pingRun (pingStart [0, 1]) [.pong 0, .pong 1]).resolved = true
    ∧ 0 ∈ (pingRun (pingStart [0]) [.disconnect 0]).waitingFor
    ∧ (pingRun (pingStart []) [PingEvent.pong 5]).resolved = true := by
  refine ⟨?_, ?_, ?_⟩
  · exact (ping_wait_set_semantics [0, 1] [.pong 0, .pong 1]).1 (by decide) (by decide)
  · exact ((ping_wait_set_semantics [0] [.disconnect 0]).2.1 0 (by decide) (by decide)).1
  · exact (ping_wait_set_semantics [] []).2.2 5

/-- Claim C6 counterexample: the claim states that during the connecting phase
operations wait for the first open rather than failing.  In the code
assertConnectionOpen throws a ConnectionNotOpen error for readyState
CONNECTING exactly as for CLOSING and CLOSED: a sendEvent in the connecting
state fails immediately instead of waiting (the connect bootstrap only hands
the connection object to the user after the first open, and reconnecting
transports can put an existing connection back into CONNECTING). -/
theorem connecting_sendEvent_throws :
    clientSendEvent cfgPlain .connecting "evt" none
      = .notOpen { message := "WebSocket connection is CONNECTING, cannot perform operation"
                   code := .ConnectionNotOpen } := by decide

/-- Claim C6 (amended): for every client connection state other than open —
connecting, closing and closed alike — calling a function or sending an event
fails immediately with a ConnectionNotOpen error thrown before anything is
transmitted; there is no waiting path. -/
theorem not_open_operations_throw {α : Type} [DecidableEq α] (cfg : RpcConfig α)
    (s : ReadyState) (name f : String) (d : Option α) (pending : List String) (mid : String)
    (hs : s ≠ .opened) :
    (∃ e, clientSendEvent cfg s name d = .notOpen e ∧ e.code = .ConnectionNotOpen)
    ∧ (∃ e, clientCallStart cfg s pending f d mid = .notOpen e
        ∧ e.code = .ConnectionNotOpen) := by
  cases s with
  | opened => exact absurd rfl hs
  | connecting => exact ⟨⟨_, rfl, rfl⟩, ⟨_, rfl, rfl⟩⟩
  | closing => exact ⟨⟨_, rfl, rfl⟩, ⟨_, rfl, rfl⟩⟩
  | closed => exact ⟨⟨_, rfl, rfl⟩, ⟨_, rfl, rfl⟩⟩

/-- Claim C6 witness: instantiation in the closed state. -/
theorem not_open_operations_witness :
    ∃ e, clientSendEvent cfgPlain .closed "evt" none = .notOpen e
      ∧ e.code = .ConnectionNotOpen :=
  (not_open_operations_throw cfgPlain .closed "evt" "fn" none [] "m1" (by decide)).1

/-- Claim C7: every server-side handler invocation that rejects is caught and
converted into a Function Error envelope (err marker, the request's mid, the
error's message and code) sent back on the same connection; nothing escapes
the message handler (the thrown field of the result is none by the record
equality) and no other effect occurs. -/
theorem handler_error_sent_as_error_envelope {α : Type} [DecidableEq α] (scfg : RpcConfig α)
    (handlers : String → Option (Handler α)) (sreg : EventRegistry)
    (mt mid : String) (d : Option α) (h : Handler α) (e : JsError)
    (hping : mt ≠ "ping") (hh : handlers mt = some h)
    (hval : funcValidationError scfg mt d = none) (herr : h d = .error e) :
    serverHandleMessage scfg handlers sreg (.parsed (.mtMsg mt mid d))
      = { sends := [.errMsg mid e.message e.code none] } := by
  simp [serverHandleMessage, hping, hh, hval, herr]

/-- A handler that always rejects, for the C7 witness. -/
def failingHandler : Handler Nat := fun _ => .error { message := "boom", code := some (.num 3) }

/-- A handler map registering g with the failing handler. -/
def handlersFailing : String → Option (Handler Nat) :=
  fun n => if n = "g" then some failingHandler else none

/-- Claim C7 witness: instantiation at a concrete rejecting handler. -/
theorem handler_error_envelope_witness :
    serverHandleMessage cfgPlain handlersFailing [] (.parsed (.mtMsg "g" "m1" (some 2)))
      = { sends := [.errMsg "m1" "boom" (some (.num 3)) none] } :=
  handler_error_sent_as_error_envelope cfgPlain handlersFailing [] "g" "m1" (some 2)
    failingHandler { message := "boom", code := some (.num 3) } (by decide) rfl rfl rfl

/-- Claim C8 counterexample: the claim states a validator failing on an
inbound event dispatch is logged and the event skipped without crashing the
receiver.  In the code dispatch throws the validation error before invoking
any handler; the throw propagates out of the async message handler (the
thrown field of the result) instead of being logged and skipped. -/
theorem inbound_validation_failure_throws :
    (clientMessageHandler cfgBothValFail (evOn [] "e" 1) [] (.parsed (.evMsg "e" none))).thrown
      = some { message := "bad" }
    ∧ (clientMessageHandler cfgBothValFail (evOn [] "e" 1) [] (.parsed (.evMsg "e" none))).invoked
      = [] := by
  exact ⟨rfl, rfl⟩

/-- Claim C8 (amended): with validation enabled, a registered validator that
rejects a payload blocks every outbound sendEvent (client and server) and
call (remote call and server self-call) of that name with a synchronous throw
before anything reaches the wire; with validation disabled the results are
fixed independently of any registered validator, so the validator is never
invoked; and a validator failing on an inbound event dispatch makes the
dispatch throw the error without invoking any handler, rather than logging
and skipping. -/
theorem validation_gating {α : Type} [DecidableEq α] (cfg : RpcConfig α)
    (name fname : String) (err ferr : JsError)
    (v fv : Option α → Option JsError) (reg : EventRegistry) (d : Option α)
    (active : List Nat) (pending : List String) (mid : String)
    (handlers : String → Option (Handler α))
    (henabled : cfg.shouldValidate = true)
    (hereg : cfg.eventValidation name = some v) (hefail : ∀ x, v x = some err)
    (hfreg : cfg.functionValidation fname = some fv) (hffail : ∀ x, fv x = some ferr) :
    clientSendEvent cfg .opened name d = .validationError err
    ∧ serverSendEvent cfg active name d = .validationError err
    ∧ clientCallStart cfg .opened pending fname d mid = .validationError ferr
    ∧ serverSelfCall cfg handlers fname d = .validationError ferr
    ∧ (clientMessageHandler cfg reg pending (.parsed (.evMsg name d))).thrown = some err
    ∧ (clientMessageHandler cfg reg pending (.parsed (.evMsg name d))).invoked = []
    ∧ (∀ cfg2 : RpcConfig α, cfg2.shouldValidate = false →
        clientSendEvent cfg2 .opened name d = .sent name d
        ∧ serverSendEvent cfg2 active name d = .sentTo active name d
        ∧ dispatch cfg2 reg name d = .ok ((regGet reg name).getD [])) := by
  have hev : eventValidationError cfg name d = some err := by
    simp [eventValidationError, henabled, hereg, hefail]
  have hfv : ∀ x, funcValidationError cfg fname x = some ferr := by
    intro x
    simp [funcValidationError, henabled, hfreg, hffail]
  refine ⟨?_, ?_, ?_, ?_, ?_, ?_, ?_⟩
  · simp [clientSendEvent, assertConnectionOpen, hev]
  · simp [serverSendEvent, hev]
  · by_cases hping : fname = "ping"
    · subst hping
      simp [clientCallStart, assertConnectionOpen, hfv]
    · simp [clientCallStart, assertConnectionOpen, hping, hfv]
  · simp [serverSelfCall, hfv]
  · simp [clientMessageHandler, dispatch, hev]
  · simp [clientMessageHandler, dispatch, hev]
  · intro cfg2 h2
    have hev2 : eventValidationError cfg2 name d = none := by
      simp [eventValidationError, h2]
    exact ⟨by simp [clientSendEvent, assertConnectionOpen, hev2],
      by simp [serverSendEvent, hev2],
      by simp [dispatch, hev2]⟩

/-- Claim C8 witness: instantiation at concrete always-failing validators. -/
theorem validation_gating_witness :
    clientSendEvent cfgBothValFail .opened "e" (some 1) = .validationError { message := "bad" }
    ∧ serverSelfCall cfgBothValFail handlersNone "f" (some 1)
      = .validationError { message := "nope" } :=
  ⟨(validation_gating cfgBothValFail "e" "f" { message := "bad" } { message := "nope" }
      (fun _ => some { message := "bad" }) (fun _ => some { message := "nope" })
      [] (some 1) [] [] "m1" handlersNone rfl rfl (fun _ => rfl) rfl (fun _ => rfl)).1,
   (validation_gating cfgBothValFail "e" "f" { message := "bad" } { message := "nope" }
      (fun _ => some { message := "bad" }) (fun _ => some { message := "nope" })
      [] (some 1) [] [] "m1" handlersNone rfl rfl (fun _ => rfl) rfl
      (fun _ => rfl)).2.2.2.1⟩

/-- Claim C9 counterexample: the claim states that self-calling a name with no
registered handler (and not a built-in) fails with the TypeError from
applying undefined.  With validation enabled and a registered validator that
rejects the payload, the validation check runs before the handler
application, so the invocation fails with the validator's error instead. -/
theorem selfcall_validator_blocks_typeerror :
    "f" ∉ builtinServerProps
    ∧ serverSelfCall cfgBothValFail handlersNone "f" none
      = .validationError { message := "nope" }
    ∧ serverSelfCall cfgBothValFail handlersNone "f" none
      ≠ SelfCallOutcome.typeErrorUndefined := by decide

/-- Claim C9 (amended): on a server connection, self-calling a function name
that has no registered handler and is not a built-in property yields an async
function whose invocation — provided no enabled validator rejects the payload
first — fails with the runtime TypeError from applying undefined, not with
the dedicated no-handler error envelope and not with a ConnectionNotOpen
error (the self-call path performs no open assertion at all). -/
theorem selfcall_unregistered_typeerror {α : Type} [DecidableEq α] (cfg : RpcConfig α)
    (handlers : String → Option (Handler α)) (name : String) (d : Option α)
    (_hb : name ∉ builtinServerProps) (hh : handlers name = none)
    (hval : funcValidationError cfg name d = none) :
    serverSelfCall cfg handlers name d = .typeErrorUndefined := by
  simp [serverSelfCall, hval, hh]

/-- Claim C9 witness: instantiation at a concrete unregistered name. -/
theorem selfcall_unregistered_witness :
    serverSelfCall cfgPlain handlersNone "foo" none = .typeErrorUndefined :=
  selfcall_unregistered_typeerror cfgPlain handlersNone "foo" none (by decide) rfl rfl

/-- Claim C10: registering the exact same callback a second time via on leaves
the subscription registry unchanged (the Set-based registry keys by callback
identity), and a single inbound event then invokes that callback exactly once:
dispatch returns the handler Set, in which the callback occurs once. -/
theorem on_same_callback_idempotent {α : Type} [DecidableEq α] (cfg : RpcConfig α)
    (reg : EventRegistry) (name : String) (cb : Nat) (d : Option α)
    (hcb : cb ∉ (regGet reg name).getD [])
    (hval : eventValidationError cfg name d = none) :
    evOn (evOn reg name cb) name cb = evOn reg name cb
    ∧ dispatch cfg (evOn (evOn reg name cb) name cb) name d
      = .ok (setAdd ((regGet reg name).getD []) cb)
    ∧ (setAdd ((regGet reg name).getD []) cb).count cb = 1 := by
  refine ⟨evOn_idem reg name cb, ?_, count_setAdd_self hcb⟩
  rw [evOn_idem reg name cb]
  simp [dispatch, hval, regGet_evOn_self]

/-- Claim C10 witness: instantiation at a concrete registry. -/
theorem on_same_callback_witness :
    evOn (evOn [] "x" 7) "x" 7 = evOn [] "x" 7
    ∧ dispatch cfgPlain (evOn (evOn [] "x" 7) "x" 7) "x" none
      = .ok (setAdd ((regGet [] "x").getD []) 7)
    ∧ (setAdd ((regGet [] "x").getD []) 7).count 7 = 1 :=
  on_same_callback_idempotent cfgPlain [] "x" 7 none (by decide) rfl

end WsRpc
